import Mathlib

/-!
Verification development for the Tezos rich-preview chat bot.

The definitions below are a shallow embedding of the bot's core pipeline:
the link-detection service (`detectNFTLinks` / `detectCollectionLinks`,
including a faithful executable model of the JavaScript regular-expression
patterns it uses), the contract-address validator (`isKTAddress`), the
record normalizer (`determineSaleType`, `buildCollectionFromData`), the
per-endpoint rate gate (`checkRateLimit`) and the orchestrator
(`processMessage`).  JavaScript numbers are modelled as rationals,
possibly-`undefined` values as `Option`, and JS truthiness of strings and
numbers by explicit helper functions.
-/

namespace TezosPreview

/-! ### JavaScript value helpers -/

/-- JS truthiness of a possibly-`undefined` string: `undefined` and `""` are falsy. -/
def jsTruthyStr : Option String → Bool
  | none => false
  | some s => !(s == "")

/-- JS `a || d` for a possibly-`undefined` string `a` and string default `d`. -/
def jsOrStr (o : Option String) (d : String) : String :=
  match o with
  | none => d
  | some s => if s == "" then d else s

/-- JS `a || d` for a possibly-`undefined` number `a` (`0` is falsy). -/
def jsOrQ (o : Option ℚ) (d : ℚ) : ℚ :=
  match o with
  | none => d
  | some x => if x = 0 then d else x

/-- JS `a || undefined` for a possibly-`undefined` number (`0` becomes `undefined`). -/
def jsTruthyOpt (o : Option ℚ) : Option ℚ :=
  match o with
  | none => none
  | some x => if x = 0 then none else some x

/-- JS `a ? a / 1000000 : undefined` for a possibly-`undefined` number. -/
def jsTernaryDiv (o : Option ℚ) : Option ℚ :=
  match o with
  | none => none
  | some v => if v = 0 then none else some (v / 1000000)

/-- JS `a || undefined` for a possibly-`undefined` string (`""` becomes `undefined`). -/
def jsStrOrUndef (o : Option String) : Option String :=
  match o with
  | none => none
  | some s => if s == "" then none else some s

/-! ### A small backtracking regular-expression engine

The detection service uses JavaScript `String.prototype.match` with a fixed
set of regular expressions (no `g` flag, so only the first, leftmost match is
returned, with its numbered group captures).  We embed exactly the constructs
those patterns use: character classes, sequencing, alternation, greedy `?`,
greedy `*` / `+` / `{n}` over character classes, numbered capturing groups and
one negative lookahead.  The engine is a standard CPS backtracking matcher:
greedy quantifiers offer the longest consumption first, alternatives are tried
left to right, and the first overall success wins — the same strategy as the
JS engine on these patterns. -/

/-- Capture assignments of a match: group index ↦ captured substring
(`none` = the group did not participate, i.e. JS `undefined`). -/
def Caps := Nat → Option String

def emptyCaps : Caps := fun _ => none

def setCap (i : Nat) (v : String) (c : Caps) : Caps :=
  fun j => if j = i then some v else c j

/-- Regular-expression syntax (restricted to the constructs the bot uses). -/
inductive Re where
  | eps
  | cls (p : Char → Bool)
  | seq (a b : Re)
  | alt (a b : Re)
  | opt (a : Re)
  | starCls (p : Char → Bool)
  | plusCls (p : Char → Bool)
  | repCls (n : Nat) (p : Char → Bool)
  | group (i : Nat) (a : Re)
  | nla (a : Re)

/-- Remainders of `s` after greedily consuming characters of class `p`,
longest consumption first (the JS backtracking order for a greedy `p*`). -/
def starRests (p : Char → Bool) : List Char → List (List Char)
  | [] => [[]]
  | c :: rest => if p c then starRests p rest ++ [c :: rest] else [c :: rest]

/-- Consume exactly `n` characters of class `p` (`p{n}`). -/
def repConsume (p : Char → Bool) : Nat → List Char → Option (List Char)
  | 0, s => some s
  | _ + 1, [] => none
  | n + 1, c :: s => if p c then repConsume p n s else none

/-- CPS backtracking matcher.  `matchRe r s caps k` matches `r` at the start
of `s` with current captures `caps`, and passes the remaining input and
updated captures to the continuation `k`; the first success wins. -/
def matchRe : Re → List Char → Caps → (List Char → Caps → Option (List Char × Caps)) →
    Option (List Char × Caps)
  | .eps, s, caps, k => k s caps
  | .cls p, s, caps, k =>
    match s with
    | [] => none
    | c :: s' => if p c then k s' caps else none
  | .seq a b, s, caps, k => matchRe a s caps (fun s' caps' => matchRe b s' caps' k)
  | .alt a b, s, caps, k => (matchRe a s caps k).orElse (fun _ => matchRe b s caps k)
  | .opt a, s, caps, k => (matchRe a s caps k).orElse (fun _ => k s caps)
  | .starCls p, s, caps, k => (starRests p s).findSome? (fun rest => k rest caps)
  | .plusCls p, s, caps, k =>
    match s with
    | [] => none
    | c :: s' => if p c then (starRests p s').findSome? (fun rest => k rest caps) else none
  | .repCls n p, s, caps, k =>
    match repConsume p n s with
    | some rest => k rest caps
    | none => none
  | .group i a, s, caps, k =>
    matchRe a s caps (fun rest caps' =>
      k rest (setCap i (String.mk (s.take (s.length - rest.length))) caps'))
  | .nla a, s, caps, k =>
    match matchRe a s caps (fun rest caps' => some (rest, caps')) with
    | some _ => none
    | none => k s caps

/-- Result of a successful (non-global) JS `String.match`: the matched
substring (`match[0]`) and the numbered group captures. -/
structure JsMatch where
  m0 : String
  groups : Caps

/-- Match `r` anchored at the start of `s`, with empty captures. -/
def matchAt (r : Re) (s : List Char) : Option (List Char × Caps) :=
  matchRe r s emptyCaps (fun rest caps => some (rest, caps))

/-- JS `content.match(re)` without the `g` flag: scan start positions left to
right and return the first match (so the leftmost occurrence wins). -/
def findFirst (r : Re) (text : List Char) : Option JsMatch :=
  (List.range (text.length + 1)).findSome? (fun i =>
    match matchAt r (text.drop i) with
    | some (rest, caps) =>
      some { m0 := String.mk ((text.drop i).take ((text.drop i).length - rest.length))
             groups := caps }
    | none => none)

/-! ### Character classes and pattern building blocks

All NFT / collection patterns carry the `i` (case-insensitive) flag, so
literal characters are matched through `Char.toLower`. -/

/-- A single case-sensitive literal character. -/
def chC (c : Char) : Re := Re.cls (fun x => x == c)

/-- A single literal character under the `i` flag. -/
def chI (c : Char) : Re := Re.cls (fun x => x.toLower == c.toLower)

/-- Sequencing of a list of expressions. -/
def seqList (l : List Re) : Re := l.foldr Re.seq Re.eps

/-- A literal string under the `i` flag. -/
def litI (s : String) : Re := seqList (s.toList.map chI)

/-- `\d`, i.e. `[0-9]` (codes 48–57). -/
def digitC (c : Char) : Bool := decide (48 ≤ c.toNat ∧ c.toNat ≤ 57)

/-- `[a-zA-Z0-9]` (codes 97–122, 65–90, 48–57). -/
def alnumC (c : Char) : Bool :=
  digitC c || decide (97 ≤ c.toNat ∧ c.toNat ≤ 122) || decide (65 ≤ c.toNat ∧ c.toNat ≤ 90)

/-- `[^\/\?]`: anything but `/` and `?`. -/
def notSlashQC (c : Char) : Bool := !(c == '/' || c == '?')

/-- JS `\s`: tab, LF, VT, FF, CR, space, NBSP, BOM, the Unicode space
separators and the line/paragraph separators. -/
def jsWhitespace (c : Char) : Bool :=
  decide (c.toNat ∈ [9, 10, 11, 12, 13, 32, 160, 65279, 5760, 8192, 8193, 8194, 8195,
    8196, 8197, 8198, 8199, 8200, 8201, 8202, 8232, 8233, 8239, 8287, 12288])

/-- `[^\s]`. -/
def notWsC (c : Char) : Bool := !jsWhitespace c

/-- `(?:https?:\/\/)?`. -/
def schemeRe : Re := Re.opt (seqList [litI "http", Re.opt (chI 's'), litI "://"])

/-- `(?:www\.)?`. -/
def wwwRe : Re := Re.opt (litI "www.")

/-- `(?:\?[^\s]*)?`: an optional query-string tail. -/
def queryTailRe : Re := Re.opt (Re.seq (chC '?') (Re.starCls notWsC))

/-- `KT1[a-zA-Z0-9]{33}` (under the `i` flag), the contract shape captured by
the EditArt patterns. -/
def ktBody : Re := seqList [chI 'K', chI 'T', chI '1', Re.repCls 33 alnumC]

/-! ### The marketplace URL patterns (from `MARKETPLACE_PATTERNS`) -/

/-- `/(?:https?:\/\/)?(?:www\.)?objkt\.com\/asset\/([^\/\?]+)\/(\d+)(?:\?[^\s]*)?/i` -/
def objktPat1 : Re :=
  seqList [schemeRe, wwwRe, litI "objkt.com/asset/", Re.group 1 (Re.plusCls notSlashQC),
    chC '/', Re.group 2 (Re.plusCls digitC), queryTailRe]

/-- `/(?:https?:\/\/)?(?:www\.)?objkt\.com\/tokens\/([^\/\?]+)\/(\d+)(?:\?[^\s]*)?/i` -/
def objktPat2 : Re :=
  seqList [schemeRe, wwwRe, litI "objkt.com/tokens/", Re.group 1 (Re.plusCls notSlashQC),
    chC '/', Re.group 2 (Re.plusCls digitC), queryTailRe]

/-- `/(?:https?:\/\/)?(?:www\.)?objkt\.com\/objkt\/(\d+)(?:\?[^\s]*)?/i` -/
def objktPat3 : Re :=
  seqList [schemeRe, wwwRe, litI "objkt.com/objkt/", Re.group 1 (Re.plusCls digitC),
    queryTailRe]

/-- `/(?:https?:\/\/)?(?:www\.)?fxhash\.xyz\/gentk\/(\d+)(?:\?[^\s]*)?/i` -/
def fxhashPat : Re :=
  seqList [schemeRe, wwwRe, litI "fxhash.xyz/gentk/", Re.group 1 (Re.plusCls digitC),
    queryTailRe]

/-- `/(?:https?:\/\/)?(?:www\.)?teia\.art\/objkt\/(\d+)(?:\?[^\s]*)?/i` -/
def teiaPat : Re :=
  seqList [schemeRe, wwwRe, litI "teia.art/objkt/", Re.group 1 (Re.plusCls digitC),
    queryTailRe]

/-- `/(?:https?:\/\/)?(?:www\.)?versum\.xyz\/token\/([^\/\?]+)\/(\d+)(?:\?[^\s]*)?/i` -/
def versumPat : Re :=
  seqList [schemeRe, wwwRe, litI "versum.xyz/token/", Re.group 1 (Re.plusCls notSlashQC),
    chC '/', Re.group 2 (Re.plusCls digitC), queryTailRe]

/-- `/(?:https?:\/\/)?(?:www\.)?bootloader\.art\/token\/(\d+)(?:\?[^\s]*)?/i` -/
def bootloaderPat : Re :=
  seqList [schemeRe, wwwRe, litI "bootloader.art/token/", Re.group 1 (Re.plusCls digitC),
    queryTailRe]

/-- `/(?:https?:\/\/)?(?:www\.)?editart\.xyz\/token-detail\/(KT1[a-zA-Z0-9]{33})\/(\d+)(?:\?[^\s]*)?/i` -/
def editartPat : Re :=
  seqList [schemeRe, wwwRe, litI "editart.xyz/token-detail/", Re.group 1 ktBody,
    chC '/', Re.group 2 (Re.plusCls digitC), queryTailRe]

/-! ### The collection URL patterns (from `COLLECTION_PATTERNS`) -/

/-- `/(?:https?:\/\/)?(?:www\.)?objkt\.com\/collections\/([^\/\?]+)\/projects\/(\d+)(?:\?[^\s]*)?/i` -/
def objktColPat1 : Re :=
  seqList [schemeRe, wwwRe, litI "objkt.com/collections/", Re.group 1 (Re.plusCls notSlashQC),
    litI "/projects/", Re.group 2 (Re.plusCls digitC), queryTailRe]

/-- `/(?:https?:\/\/)?(?:www\.)?objkt\.com\/collections\/([^\/\?]+)(?!\/projects\/)(?:\?[^\s]*)?/i` -/
def objktColPat2 : Re :=
  seqList [schemeRe, wwwRe, litI "objkt.com/collections/", Re.group 1 (Re.plusCls notSlashQC),
    Re.nla (litI "/projects/"), queryTailRe]

/-- `/(?:https?:\/\/)?(?:www\.)?fxhash\.xyz\/generative\/(\d+)(?:\?[^\s]*)?/i` -/
def fxhashColPat1 : Re :=
  seqList [schemeRe, wwwRe, litI "fxhash.xyz/generative/", Re.group 1 (Re.plusCls digitC),
    queryTailRe]

/-- `/(?:https?:\/\/)?(?:www\.)?fxhash\.xyz\/project\/([^\/\?]+)(?:\?[^\s]*)?/i` -/
def fxhashColPat2 : Re :=
  seqList [schemeRe, wwwRe, litI "fxhash.xyz/project/", Re.group 1 (Re.plusCls notSlashQC),
    queryTailRe]

/-- `/(?:https?:\/\/)?(?:www\.)?bootloader\.art\/generator\/(\d+)(?:\?[^\s]*)?/i` -/
def bootloaderColPat : Re :=
  seqList [schemeRe, wwwRe, litI "bootloader.art/generator/", Re.group 1 (Re.plusCls digitC),
    queryTailRe]

/-- `/(?:https?:\/\/)?(?:www\.)?editart\.xyz\/series\/(KT1[a-zA-Z0-9]{33})(?:\/[^\s]*)?/i` -/
def editartColPat : Re :=
  seqList [schemeRe, wwwRe, litI "editart.xyz/series/", Re.group 1 ktBody,
    Re.opt (Re.seq (chC '/') (Re.starCls notWsC))]

/-! ### The detection service (`NFTDetectionService`) -/

/-- The closed set of marketplace keys of `MARKETPLACE_PATTERNS` /
`COLLECTION_PATTERNS`. -/
inductive MKey where
  | objkt | fxhash | teia | versum | bootloader | editart
deriving DecidableEq

/-- One recognition pattern together with its number of capturing groups
(so that `match.length = groupCount + 1`). -/
structure PatternEntry where
  pat : Re
  groupCount : Nat

/-- `MARKETPLACE_PATTERNS`: per marketplace, its display name and its ordered
recognition patterns. -/
def MARKETPLACE_PATTERNS : List (MKey × String × List PatternEntry) :=
  [(MKey.objkt, "OBJKT", [⟨objktPat1, 2⟩, ⟨objktPat2, 2⟩, ⟨objktPat3, 1⟩]),
   (MKey.fxhash, "fxhash", [⟨fxhashPat, 1⟩]),
   (MKey.teia, "Teia", [⟨teiaPat, 1⟩]),
   (MKey.versum, "Versum", [⟨versumPat, 2⟩]),
   (MKey.bootloader, "Bootloader", [⟨bootloaderPat, 1⟩]),
   (MKey.editart, "EditArt", [⟨editartPat, 2⟩])]

/-- `COLLECTION_PATTERNS`. -/
def COLLECTION_PATTERNS : List (MKey × String × List PatternEntry) :=
  [(MKey.objkt, "OBJKT", [⟨objktColPat1, 2⟩, ⟨objktColPat2, 1⟩]),
   (MKey.fxhash, "fxhash", [⟨fxhashColPat1, 1⟩, ⟨fxhashColPat2, 1⟩]),
   (MKey.bootloader, "Bootloader", [⟨bootloaderColPat, 1⟩]),
   (MKey.editart, "EditArt", [⟨editartColPat, 1⟩])]

/-- `MarketplaceMatch` (`types/index.ts`). -/
structure MarketplaceMatch where
  marketplace : String
  tokenId : String
  contractAddress : Option String
  url : String
deriving DecidableEq

/-- `CollectionMatch` (`types/index.ts`). -/
structure CollectionMatch where
  marketplace : String
  contractAddress : Option String
  projectId : Option String
  url : String
deriving DecidableEq

/-- The `switch (marketplaceKey)` of the `detectNFTLinks` loop body:
the extracted `(tokenId, contractAddress)` pair. -/
def nftFields (key : MKey) (e : PatternEntry) (jm : JsMatch) : String × Option String :=
  match key with
  | .objkt =>
    if 3 ≤ e.groupCount + 1 ∧ jsTruthyStr (jm.groups 2) = true then
      (jsOrStr (jm.groups 2) "", jm.groups 1)
    else if 2 ≤ e.groupCount + 1 ∧ jsTruthyStr (jm.groups 1) = true then
      (jsOrStr (jm.groups 1) "", none)
    else ("", none)
  | .fxhash => (jsOrStr (jm.groups 1) "", none)
  | .teia => (jsOrStr (jm.groups 1) "", none)
  | .versum => (jsOrStr (jm.groups 2) "", jm.groups 1)
  | .bootloader => (jsOrStr (jm.groups 1) "", none)
  | .editart => (jsOrStr (jm.groups 2) "", some (jsOrStr (jm.groups 1) ""))

/-- The per-pattern body of the `detectNFTLinks` loop: run `content.match`,
extract the fields by the marketplace-keyed `switch`, and push a match only
when the extracted token id is non-empty. -/
def extractNFTMatch (key : MKey) (mname : String) (e : PatternEntry) (content : String) :
    Option MarketplaceMatch :=
  match findFirst e.pat content.toList with
  | none => none
  | some jm =>
    if (nftFields key e jm).1 = "" then none
    else some { marketplace := mname, tokenId := (nftFields key e jm).1,
                contractAddress := (nftFields key e jm).2, url := jm.m0 }

/-- `NFTDetectionService.detectNFTLinks`: for every marketplace and every one
of its patterns, take the first match of that pattern in the text. -/
def detectNFTLinks (content : String) : List MarketplaceMatch :=
  MARKETPLACE_PATTERNS.flatMap (fun mk =>
    mk.2.2.filterMap (fun e => extractNFTMatch mk.1 mk.2.1 e content))

/-- The key-branched field extraction of the `detectCollectionLinks` loop
body: the `(contractAddress, projectId)` pair. -/
def collectionFields (key : MKey) (jm : JsMatch) : Option String × Option String :=
  match key with
  | .objkt => (jm.groups 1, jm.groups 2)
  | .fxhash => (none, jm.groups 1)
  | .bootloader => (none, jm.groups 1)
  | .editart => (jm.groups 1, none)
  | _ => (none, none)

/-- The per-pattern body of the `detectCollectionLinks` loop. -/
def extractCollectionMatch (key : MKey) (mname : String) (e : PatternEntry)
    (content : String) : Option CollectionMatch :=
  match findFirst e.pat content.toList with
  | none => none
  | some jm =>
    some { marketplace := mname, contractAddress := (collectionFields key jm).1,
           projectId := (collectionFields key jm).2, url := jm.m0 }

/-- `NFTDetectionService.detectCollectionLinks`. -/
def detectCollectionLinks (content : String) : List CollectionMatch :=
  COLLECTION_PATTERNS.flatMap (fun mk =>
    mk.2.2.filterMap (fun e => extractCollectionMatch mk.1 mk.2.1 e content))

/-! ### The contract-address validator -/

/-- The character class `[1-9A-HJ-NP-Za-km-z]` of the KT1 regex
(codes: `1`–`9` = 49–57, `A`–`H` = 65–72, `J`–`N` = 74–78, `P`–`Z` = 80–90,
`a`–`k` = 97–107, `m`–`z` = 109–122). -/
def b58C (c : Char) : Bool :=
  decide (49 ≤ c.toNat ∧ c.toNat ≤ 57) ||
  decide (65 ≤ c.toNat ∧ c.toNat ≤ 72) ||
  decide (74 ≤ c.toNat ∧ c.toNat ≤ 78) ||
  decide (80 ≤ c.toNat ∧ c.toNat ≤ 90) ||
  decide (97 ≤ c.toNat ∧ c.toNat ≤ 107) ||
  decide (109 ≤ c.toNat ∧ c.toNat ≤ 122)

/-- `isKTAddress`: the anchored test `/^KT1[1-9A-HJ-NP-Za-km-z]{33}$/.test(address)`
(case-sensitive, no `i` flag): the literal prefix `KT1`, then exactly 33
characters of the class above, then end of string. -/
def isKTAddress (address : String) : Bool :=
  decide ((address.toList.take 3) = ['K', 'T', '1']) &&
  (address.toList.drop 3).length == 33 &&
  (address.toList.drop 3).all b58C

/-- Modelled from the spec: the claim's base58 alphabet, "digits 1-9 and
letters excluding O, I, l" and "no 0": a digit (48–57) or an ASCII letter
(65–90, 97–122), other than `0` (48), `O` (79), `I` (73) and `l` (108). -/
def claimBase58 (c : Char) : Bool :=
  (decide (48 ≤ c.toNat ∧ c.toNat ≤ 57) ||
   decide (65 ≤ c.toNat ∧ c.toNat ≤ 90) ||
   decide (97 ≤ c.toNat ∧ c.toNat ≤ 122)) &&
  !(decide (c.toNat = 48) || decide (c.toNat = 79) || decide (c.toNat = 73) ||
    decide (c.toNat = 108))

/-- Modelled from the spec: "the canonical KT1 contract pattern: the prefix
`KT1` followed by 33 base58-alphabet characters". -/
def canonicalKT (s : String) : Bool :=
  decide ((s.toList.take 3) = ['K', 'T', '1']) &&
  (s.toList.drop 3).length == 33 &&
  (s.toList.drop 3).all claimBase58

/-- The shape actually guaranteed by the EditArt capture group
`(KT1[a-zA-Z0-9]{33})` under the `i` flag: a case-insensitive `KT1` prefix
followed by exactly 33 ASCII alphanumeric characters. -/
def editartKTShape (s : String) : Bool :=
  match s.toList with
  | c1 :: c2 :: c3 :: rest =>
    (c1.toLower == 'K'.toLower) && (c2.toLower == 'T'.toLower) &&
    (c3.toLower == '1'.toLower) && rest.length == 33 && rest.all alnumC
  | _ => false

/-! ### The record normalizer (`NFTService.determineSaleType`,
`NFTService.buildCollectionFromData`) -/

/-- The `open_edition_active` record of the OBJKT token payload. -/
structure OpenEditionActive where
  price : ℚ
  start_time : Option String
  end_time : Option String
  max_per_wallet : Option ℚ
deriving DecidableEq

/-- An element of `listings_active` (its `price` string is modelled as the
parsed numeric value that `parseFloat` produces on it). -/
structure ListingActive where
  price : ℚ
  amount_left : ℚ
deriving DecidableEq

/-- An element of `english_auctions_active`.  `current_price` is an optional
numeric string; a present string (even `"0"`) is JS-truthy, so
`current_price || reserve` picks a present `current_price` regardless of its
numeric value. -/
structure EnglishAuctionActive where
  current_price : Option ℚ
  reserve : ℚ
deriving DecidableEq

/-- An element of `dutch_auctions_active`. -/
structure DutchAuctionActive where
  current_price : ℚ
deriving DecidableEq

/-- The slice of `ObjktTokenMetadata` that `determineSaleType` reads. -/
structure ObjktTokenMetadata where
  supply : Option ℚ
  open_edition_active : Option OpenEditionActive
  listings_active : Option (List ListingActive)
  english_auctions_active : Option (List EnglishAuctionActive)
  dutch_auctions_active : Option (List DutchAuctionActive)
deriving DecidableEq

/-- A canonical price record. -/
structure PriceInfo where
  amount : ℚ
  currency : String
  symbol : String
deriving DecidableEq

/-- A canonical edition record. -/
structure EditionInfo where
  current : ℚ
  total : ℚ
deriving DecidableEq

/-- The canonical `openEditionInfo` record (every field included only when the
raw field is not `undefined`). -/
structure OpenEditionDisplay where
  maxPerWallet : Option ℚ
  endTime : Option String
  startTime : Option String
  mintedCount : Option ℚ
deriving DecidableEq

/-- The result record of `determineSaleType`. -/
structure SaleInfo where
  price : Option PriceInfo
  edition : Option EditionInfo
  saleType : Option String
  openEditionInfo : Option OpenEditionDisplay
deriving DecidableEq

/-- `NFTService.determineSaleType`: priority Open Edition > Listings >
English auctions > Dutch auctions > none.  Monetary amounts are divided by
1,000,000; `supply` defaults follow the JS `||` semantics. -/
def determineSaleType (metadata : ObjktTokenMetadata) : SaleInfo :=
  match metadata.open_edition_active with
  | some oe =>
    { price := some { amount := oe.price / 1000000, currency := "XTZ", symbol := "ꜩ" }
      edition := none
      saleType := some "open_edition"
      openEditionInfo := some
        { maxPerWallet := oe.max_per_wallet
          endTime := oe.end_time
          startTime := oe.start_time
          mintedCount := metadata.supply } }
  | none =>
    match metadata.listings_active with
    | some (listing :: _) =>
      { price := some { amount := listing.price / 1000000, currency := "XTZ", symbol := "ꜩ" }
        edition := some { current := listing.amount_left, total := jsOrQ metadata.supply 0 }
        saleType := some "listing"
        openEditionInfo := none }
    | _ =>
      match metadata.english_auctions_active with
      | some (auction :: _) =>
        { price := some
            { amount := (match auction.current_price with
                         | some p => p
                         | none => auction.reserve) / 1000000
              currency := "XTZ", symbol := "ꜩ" }
          edition := some { current := 1, total := jsOrQ metadata.supply 1 }
          saleType := some "english_auction"
          openEditionInfo := none }
      | _ =>
        match metadata.dutch_auctions_active with
        | some (auction :: _) =>
          { price := some { amount := auction.current_price / 1000000,
                            currency := "XTZ", symbol := "ꜩ" }
            edition := some { current := 1, total := jsOrQ metadata.supply 1 }
            saleType := some "dutch_auction"
            openEditionInfo := none }
        | _ =>
          { price := none
            edition := match metadata.supply with
                       | some s => if s = 0 then none else some { current := 1, total := s }
                       | none => none
            saleType := some "none"
            openEditionInfo := none }

/-- The raw collection payload read by `buildCollectionFromData`. -/
structure CollectionData where
  contract : Option String
  name : Option String
  description : Option String
  logo : Option String
  collection_type : Option String
  floor_price : Option ℚ
  items : Option ℚ
  editions : Option ℚ
  owners : Option ℚ
  twitter : Option String
  website : Option String
  volume_24h : Option ℚ
  volume_total : Option ℚ
  verified_creators : Option (List String)
deriving DecidableEq

/-- A marketplace reference of a canonical record. -/
structure MarketplaceRef where
  name : String
  url : String
deriving DecidableEq

/-- `TezosCollection` (`types/index.ts`). -/
structure TezosCollection where
  contract : String
  name : String
  description : Option String
  logo : Option String
  collectionType : Option String
  floorPrice : Option ℚ
  items : Option ℚ
  editions : Option ℚ
  owners : Option ℚ
  twitter : Option String
  website : Option String
  volume24h : Option ℚ
  volumeTotal : Option ℚ
  verifiedCreators : Option (List String)
  marketplace : MarketplaceRef
deriving DecidableEq

/-- `ApiResponse` (`types/index.ts`). -/
structure ApiResponse (α : Type) where
  success : Bool
  data : Option α := none
  error : Option String := none
deriving DecidableEq

/-- `NFTService.buildCollectionFromData` (the pure record construction; the
surrounding `try`/`catch` cannot fire in this pure model).  Monetary fields
(`floor_price`, `volume_24h`, `volume_total`) use `x ? x / 1000000 : undefined`;
count fields use `x || undefined`; arrays are always truthy. -/
def buildCollectionFromData (collectionData : CollectionData) (mtch : CollectionMatch) :
    ApiResponse TezosCollection :=
  { success := true
    data := some
      { contract := jsOrStr collectionData.contract (jsOrStr mtch.contractAddress "Unknown")
        name := jsOrStr collectionData.name "Unknown Collection"
        description := jsStrOrUndef collectionData.description
        logo := jsStrOrUndef collectionData.logo
        collectionType := jsStrOrUndef collectionData.collection_type
        floorPrice := jsTernaryDiv collectionData.floor_price
        items := jsTruthyOpt collectionData.items
        editions := jsTruthyOpt collectionData.editions
        owners := jsTruthyOpt collectionData.owners
        twitter := jsStrOrUndef collectionData.twitter
        website := jsStrOrUndef collectionData.website
        volume24h := jsTernaryDiv collectionData.volume_24h
        volumeTotal := jsTernaryDiv collectionData.volume_total
        verifiedCreators := collectionData.verified_creators
        marketplace := { name := mtch.marketplace, url := mtch.url } }
    error := none }

/-! ### The per-endpoint rate gate (`TzktApiService.checkRateLimit`,
`ObjktApiService.checkRateLimit` — identical code) -/

/-- The `rateLimit : Map<string, number>` of a fetcher instance: endpoint
key ↦ timestamp (ms) of the last accepted call. -/
def RateLimitMap := List (String × Int)

/-- `Map.get` (first binding wins, as later `set`s are consed on). -/
def rlGet (m : RateLimitMap) (key : String) : Option Int :=
  (m.find? (fun p => p.1 == key)).map (fun p => p.2)

/-- `Map.set`. -/
def rlSet (m : RateLimitMap) (key : String) (v : Int) : RateLimitMap :=
  (key, v) :: m

/-- `checkRateLimit`: with `lastCall` the recorded timestamp for `endpoint`
(defaulting to 0) and `minInterval = 60000 / config.api.rateLimit`, reject
when `now - lastCall < minInterval`; otherwise record `now` and accept. -/
def checkRateLimit (rateLimit : ℚ) (rl : RateLimitMap) (endpoint : String) (now : Int) :
    Bool × RateLimitMap :=
  let lastCall : Int := (rlGet rl endpoint).getD 0
  let minInterval : ℚ := 60000 / rateLimit
  if ((now : ℚ) - (lastCall : ℚ)) < minInterval then
    (false, rl)
  else
    (true, rlSet rl endpoint now)

/-! ### The orchestrator (`NFTService.processMessage`) -/

/-- The slice of `TezosNFT` the orchestrator claims need (the orchestrator
treats records opaquely). -/
structure TezosNFT where
  id : String
  name : String
  saleType : Option String
  price : Option PriceInfo
  edition : Option EditionInfo
  marketplace : MarketplaceRef
deriving DecidableEq

/-- A settled promise, as produced by `Promise.allSettled`. -/
inductive SettledResult (α : Type) where
  | fulfilled (value : ApiResponse α)
  | rejected (reason : String)
deriving DecidableEq

/-- The error text used for a failed per-match task:
`rejected ? reason : value.error` (an `undefined` error interpolates as
`"undefined"`). -/
def settledErrorMsg (r : SettledResult TezosNFT) : String :=
  match r with
  | .rejected reason => reason
  | .fulfilled value => value.error.getD "undefined"

/-- The success test of the aggregation loop:
`fulfilled && value.success && value.data`. -/
def settledSuccess (r : SettledResult TezosNFT) : Option TezosNFT :=
  match r with
  | .fulfilled value => if value.success then value.data else none
  | .rejected _ => none

/-- One step of the `results.forEach((result, index) => ...)` loop: push the
record on success, else push `Token <tokenId>: <msg>` on the error list
(`matches[index]?.tokenId` interpolates as `"undefined"` when out of range). -/
def collectStep (matchList : List MarketplaceMatch) (acc : List TezosNFT × List String)
    (p : Nat × SettledResult TezosNFT) : List TezosNFT × List String :=
  match settledSuccess p.2 with
  | some nft => (acc.1 ++ [nft], acc.2)
  | none =>
    let tok := match matchList.get? p.1 with
               | some mt => mt.tokenId
               | none => "undefined"
    (acc.1, acc.2 ++ ["Token " ++ tok ++ ": " ++ settledErrorMsg p.2])

/-- The aggregation loop of `processMessage` over the settled results
(in input order, which `Promise.allSettled` preserves). -/
def collectResults (matchList : List MarketplaceMatch)
    (results : List (SettledResult TezosNFT)) : List TezosNFT × List String :=
  results.enum.foldl (collectStep matchList) ([], [])

/-- `NFTService.processMessage`, with the per-match fetch
(`this.fetchNFTData`) abstracted as an oracle from a match to its settled
outcome.  Zero matches fail fast; otherwise all per-match tasks run and are
aggregated; zero successes fail with the joined error list; otherwise the
successful records are returned. -/
def processMessage (fetchNFTData : MarketplaceMatch → SettledResult TezosNFT)
    (content : String) : ApiResponse (List TezosNFT) :=
  let matchList := detectNFTLinks content
  if matchList.length = 0 then
    { success := false, data := none,
      error := some "No Tezos marketplace links found in message" }
  else
    let results := matchList.map fetchNFTData
    let collected := collectResults matchList results
    if collected.1.length = 0 then
      { success := false, data := none,
        error := some ("Failed to fetch NFT data: " ++ String.intercalate ", " collected.2) }
    else
      { success := true, data := some collected.1, error := none }

/-! ### Auxiliary definitions for the engine lemmas -/

/-- The capture-group indices occurring in an expression. -/
def groupIdxs : Re → List Nat
  | .eps => []
  | .cls _ => []
  | .seq a b => groupIdxs a ++ groupIdxs b
  | .alt a b => groupIdxs a ++ groupIdxs b
  | .opt a => groupIdxs a
  | .starCls _ => []
  | .plusCls _ => []
  | .repCls _ _ => []
  | .group i a => i :: groupIdxs a
  | .nla a => groupIdxs a

/-- A continuation gated by a Boolean predicate on the captures. -/
def gateK (P : Caps → Bool) (k : List Char → Caps → Option (List Char × Caps)) :
    List Char → Caps → Option (List Char × Caps) :=
  fun s c => if P c then k s c else none

/-- `r` only ever hands captures satisfying `P` to its continuation. -/
def GuardedP (P : Caps → Bool) (r : Re) : Prop :=
  ∀ s caps k, matchRe r s caps k = matchRe r s caps (gateK P k)

/-- Group 1 holds a string of the EditArt contract shape. -/
def shape1P (c : Caps) : Bool :=
  match c 1 with
  | some s => editartKTShape s
  | none => false

/-- Group 1 participated in the match. -/
def isSome1P (c : Caps) : Bool := (c 1).isSome

/-- The error entry the aggregation loop records for the settled result at a
given index (`none` when the task succeeded). -/
def errEntry (matchList : List MarketplaceMatch) (p : Nat × SettledResult TezosNFT) :
    Option String :=
  match settledSuccess p.2 with
  | some _ => none
  | none =>
    some ("Token " ++ (match matchList.get? p.1 with
      | some mt => mt.tokenId
      | none => "undefined") ++ ": " ++ settledErrorMsg p.2)

/-! ### Concrete example inputs -/

/-- A collection payload whose raw `floor_price` is the integer `0`. -/
def zeroFloorData : CollectionData where
  contract := some "KT1x"
  name := some "Zero"
  description := none
  logo := none
  collection_type := none
  floor_price := some 0
  items := none
  editions := none
  owners := none
  twitter := none
  website := none
  volume_24h := none
  volume_total := none
  verified_creators := none

/-- A collection match to feed `buildCollectionFromData`. -/
def someColMatch : CollectionMatch where
  marketplace := "OBJKT"
  contractAddress := some "KT1x"
  projectId := none
  url := "https://objkt.com/collections/KT1x"

/-- A token payload carrying an active open edition, an active listing and an
active English auction at once. -/
def oeAndListingMd : ObjktTokenMetadata where
  supply := some 10
  open_edition_active := some
    { price := 5000000, start_time := none, end_time := none, max_per_wallet := some 2 }
  listings_active := some [{ price := 3000000, amount_left := 3 }]
  english_auctions_active := some [{ current_price := none, reserve := 1000000 }]
  dutch_auctions_active := none

/-- A token payload with a listing and an auction but no open edition. -/
def listingAndAuctionMd : ObjktTokenMetadata where
  supply := some 10
  open_edition_active := none
  listings_active := some [{ price := 5000000, amount_left := 3 }]
  english_auctions_active := some [{ current_price := none, reserve := 1000000 }]
  dutch_auctions_active := none

/-- A message containing an OBJKT collections URL of the
`/collections/{path}/projects/{id}` form. -/
def bothFieldsText : String := "objkt.com/collections/abc/projects/12"

/-- A message containing an EditArt token URL whose contract segment is
alphanumeric but not base58 (33 `0`s after `KT1`). -/
def nonBase58Text : String :=
  "editart.xyz/token-detail/KT1000000000000000000000000000000000/3"

/-- The contract captured from `nonBase58Text`. -/
def nonBase58Addr : String := "KT1000000000000000000000000000000000"

/-- A message with two distinct URLs matching the same OBJKT pattern. -/
def twoUrlText : String := "objkt.com/asset/KT1a/1 objkt.com/asset/KT1b/2"

/-- A message with a single OBJKT short-form token URL. -/
def oneLinkText : String := "objkt.com/objkt/5"

/-- A collection payload with nonzero monetary fields (raw minor units). -/
def sevenData : CollectionData where
  contract := some "KT1x"
  name := some "Seven"
  description := none
  logo := none
  collection_type := none
  floor_price := some 7000000
  items := none
  editions := none
  owners := none
  twitter := none
  website := none
  volume_24h := some 7000000
  volume_total := some 7000000
  verified_creators := none

/-- A fetch oracle whose every task rejects. -/
def allRejectOracle : MarketplaceMatch → SettledResult TezosNFT :=
  fun _ => SettledResult.rejected "boom"

/-- A concrete successful NFT record. -/
def okNFT : TezosNFT where
  id := "5"
  name := "n"
  saleType := some "none"
  price := none
  edition := none
  marketplace := { name := "OBJKT", url := "objkt.com/objkt/5" }

/-- A fetch oracle whose every task fulfills with a successful response. -/
def allOkOracle : MarketplaceMatch → SettledResult TezosNFT :=
  fun _ => SettledResult.fulfilled { success := true, data := some okNFT, error := none }

/-! ## Lemmas about the engine -/

theorem findSome?_congr {α β : Type} {f g : α → Option β} {l : List α}
    (h : ∀ x ∈ l, f x = g x) : l.findSome? f = l.findSome? g := by
  induction l with
  | nil => rfl
  | cons a as ih =>
    rw [List.findSome?_cons, List.findSome?_cons, h a (by simp)]
    cases g a with
    | some b => rfl
    | none => exact ih (fun x hx => h x (by simp [hx]))

/-- Any successful run of the matcher got its value from a call of the
continuation. -/
theorem matchRe_some_origin (r : Re) : ∀ (s : List Char) (caps : Caps) k v,
    matchRe r s caps k = some v → ∃ s' c', k s' c' = some v := by
  induction r with
  | eps =>
    intro s caps k v h
    exact ⟨s, caps, h⟩
  | cls p =>
    intro s caps k v h
    cases s with
    | nil => exact absurd h (by simp [matchRe])
    | cons c s' =>
      simp only [matchRe] at h
      split at h
      · exact ⟨s', caps, h⟩
      · exact absurd h (by simp)
  | seq a b iha ihb =>
    intro s caps k v h
    simp only [matchRe] at h
    obtain ⟨s', c', h'⟩ := iha _ _ _ _ h
    exact ihb _ _ _ _ h'
  | alt a b iha ihb =>
    intro s caps k v h
    simp only [matchRe] at h
    cases hx : matchRe a s caps k with
    | some w =>
      rw [hx] at h
      simp only [Option.orElse] at h
      exact iha _ _ _ _ (hx.trans h)
    | none =>
      rw [hx] at h
      simp only [Option.orElse] at h
      exact ihb _ _ _ _ h
  | opt a iha =>
    intro s caps k v h
    simp only [matchRe] at h
    cases hx : matchRe a s caps k with
    | some w =>
      rw [hx] at h
      simp only [Option.orElse] at h
      exact iha _ _ _ _ (hx.trans h)
    | none =>
      rw [hx] at h
      simp only [Option.orElse] at h
      exact ⟨s, caps, h⟩
  | starCls p =>
    intro s caps k v h
    simp only [matchRe] at h
    obtain ⟨rest, _, hr⟩ := List.exists_of_findSome?_eq_some h
    exact ⟨rest, caps, hr⟩
  | plusCls p =>
    intro s caps k v h
    cases s with
    | nil => exact absurd h (by simp [matchRe])
    | cons c s' =>
      simp only [matchRe] at h
      split at h
      · obtain ⟨rest, _, hr⟩ := List.exists_of_findSome?_eq_some h
        exact ⟨rest, caps, hr⟩
      · exact absurd h (by simp)
  | repCls n p =>
    intro s caps k v h
    simp only [matchRe] at h
    cases hx : repConsume p n s with
    | some rest =>
      rw [hx] at h
      exact ⟨rest, caps, h⟩
    | none =>
      rw [hx] at h
      exact absurd h (by simp)
  | group i a iha =>
    intro s caps k v h
    simp only [matchRe] at h
    obtain ⟨s', c', h'⟩ := iha _ _ _ _ h
    exact ⟨s', _, h'⟩
  | nla a iha =>
    intro s caps k v h
    simp only [matchRe] at h
    split at h
    · exact absurd h (by simp)
    · exact ⟨s, caps, h⟩

/-- Congruence of the matcher in its continuation, relative to a predicate
on the captures that holds initially and is stable under every capture the
expression can record. -/
theorem matchRe_congrP (P : Caps → Bool) (r : Re) :
    ∀ (s : List Char) (caps : Caps) k₁ k₂,
      (∀ j str c, j ∈ groupIdxs r → P c = true → P (setCap j str c) = true) →
      P caps = true →
      (∀ s' c', P c' = true → k₁ s' c' = k₂ s' c') →
      matchRe r s caps k₁ = matchRe r s caps k₂ := by
  induction r with
  | eps =>
    intro s caps k₁ k₂ hst hP hk
    exact hk s caps hP
  | cls p =>
    intro s caps k₁ k₂ hst hP hk
    cases s with
    | nil => rfl
    | cons c s' =>
      simp only [matchRe]
      split
      · exact hk s' caps hP
      · rfl
  | seq a b iha ihb =>
    intro s caps k₁ k₂ hst hP hk
    simp only [matchRe]
    refine iha s caps _ _ (fun j str c hj => hst j str c ?_) hP ?_
    · simp only [groupIdxs, List.mem_append]
      exact Or.inl hj
    · intro s' c' hP'
      refine ihb s' c' k₁ k₂ (fun j str c hj => hst j str c ?_) hP' hk
      simp only [groupIdxs, List.mem_append]
      exact Or.inr hj
  | alt a b iha ihb =>
    intro s caps k₁ k₂ hst hP hk
    simp only [matchRe]
    rw [iha s caps k₁ k₂ (fun j str c hj => hst j str c (by
          simp only [groupIdxs, List.mem_append]; exact Or.inl hj)) hP hk,
        ihb s caps k₁ k₂ (fun j str c hj => hst j str c (by
          simp only [groupIdxs, List.mem_append]; exact Or.inr hj)) hP hk]
  | opt a iha =>
    intro s caps k₁ k₂ hst hP hk
    simp only [matchRe]
    rw [iha s caps k₁ k₂ (fun j str c hj => hst j str c (by simpa [groupIdxs] using hj)) hP hk,
        hk s caps hP]
  | starCls p =>
    intro s caps k₁ k₂ hst hP hk
    simp only [matchRe]
    exact findSome?_congr (fun rest _ => hk rest caps hP)
  | plusCls p =>
    intro s caps k₁ k₂ hst hP hk
    cases s with
    | nil => rfl
    | cons c s' =>
      simp only [matchRe]
      split
      · exact findSome?_congr (fun rest _ => hk rest caps hP)
      · rfl
  | repCls n p =>
    intro s caps k₁ k₂ hst hP hk
    simp only [matchRe]
    cases repConsume p n s with
    | some rest => exact hk rest caps hP
    | none => rfl
  | group i a iha =>
    intro s caps k₁ k₂ hst hP hk
    simp only [matchRe]
    refine iha s caps _ _ (fun j str c hj => hst j str c (by
        simp only [groupIdxs, List.mem_cons]; exact Or.inr hj)) hP ?_
    intro s' c' hP'
    exact hk s' _ (hst i _ c' (by simp [groupIdxs]) hP')
  | nla a iha =>
    intro s caps k₁ k₂ hst hP hk
    simp only [matchRe]
    split
    · rfl
    · exact hk s caps hP

/-- Gating form of `matchRe_congrP`. -/
theorem matchRe_gate (P : Caps → Bool) (r : Re)
    (hst : ∀ j str c, j ∈ groupIdxs r → P c = true → P (setCap j str c) = true) :
    ∀ (s : List Char) (caps : Caps) k, P caps = true →
      matchRe r s caps k = matchRe r s caps (gateK P k) := by
  intro s caps k hP
  refine matchRe_congrP P r s caps k (gateK P k) hst hP ?_
  intro s' c' hc
  simp [gateK, hc]

theorem guardedP_seq_left {P : Caps → Bool} {a b : Re} (h : GuardedP P b) :
    GuardedP P (Re.seq a b) := by
  intro s caps k
  simp only [matchRe]
  have hfun : (fun s' c' => matchRe b s' c' k) =
      (fun s' c' => matchRe b s' c' (gateK P k)) := by
    funext s' c'
    exact h s' c' k
  rw [hfun]

theorem guardedP_seq_first {P : Caps → Bool} {a b : Re} (ha : GuardedP P a)
    (hst : ∀ j str c, j ∈ groupIdxs b → P c = true → P (setCap j str c) = true) :
    GuardedP P (Re.seq a b) := by
  intro s caps k
  simp only [matchRe]
  rw [ha s caps (fun s' c' => matchRe b s' c' k),
      ha s caps (fun s' c' => matchRe b s' c' (gateK P k))]
  have hfun : gateK P (fun s' c' => matchRe b s' c' k) =
      gateK P (fun s' c' => matchRe b s' c' (gateK P k)) := by
    funext s' c'
    simp only [gateK]
    split
    · exact matchRe_gate P b hst s' c' k (by assumption)
    · rfl
  rw [hfun]

/-- A group always records a capture, so its continuation always sees group
`i` set. -/
theorem guardedP_group_isSome (i : Nat) (a : Re) :
    GuardedP (fun c => (c i).isSome) (Re.group i a) := by
  intro s caps k
  simp only [matchRe]
  have hfun : (fun rest caps' =>
        k rest (setCap i (String.mk (s.take (s.length - rest.length))) caps')) =
      (fun rest caps' => gateK (fun c => (c i).isSome) k rest
        (setCap i (String.mk (s.take (s.length - rest.length))) caps')) := by
    funext rest caps'
    simp [gateK, setCap]
  rw [hfun]

/-- `isSome1P` is stable under recording any capture. -/
theorem isSome1P_stable (j : Nat) (str : String) (c : Caps) (h : isSome1P c = true) :
    isSome1P (setCap j str c) = true := by
  by_cases hj : j = 1
  · subst hj; simp [isSome1P, setCap]
  · simpa [isSome1P, setCap, Ne.symm hj] using h

/-- `shape1P` is stable under recording captures of groups other than 1. -/
theorem shape1P_stable_ne (j : Nat) (str : String) (c : Caps) (hj : j ≠ 1)
    (h : shape1P c = true) : shape1P (setCap j str c) = true := by
  simpa [shape1P, setCap, Ne.symm hj] using h

theorem repConsume_sound (p : Char → Bool) :
    ∀ (n : Nat) (s rest : List Char), repConsume p n s = some rest →
      ∃ pre, s = pre ++ rest ∧ pre.length = n ∧ pre.all p = true := by
  intro n
  induction n with
  | zero =>
    intro s rest h
    simp only [repConsume, Option.some.injEq] at h
    exact ⟨[], by simp [h], rfl, rfl⟩
  | succ m ih =>
    intro s rest h
    cases s with
    | nil => exact absurd h (by simp [repConsume])
    | cons c s' =>
      simp only [repConsume] at h
      split at h
      · obtain ⟨pre, hpre, hlen, hall⟩ := ih s' rest h
        refine ⟨c :: pre, by simp [hpre], by simp [hlen], ?_⟩
        simp only [List.all_cons, Bool.and_eq_true]
        exact ⟨by assumption, hall⟩
      · exact absurd h (by simp)

/-- Explicit run of the `KT1[a-zA-Z0-9]{33}` sub-pattern: it consumes
three literal (case-insensitive) characters `K`, `T`, `1` and then exactly
33 alphanumerics, without backtracking. -/
theorem ktBody_run (s : List Char) (caps : Caps)
    (k : List Char → Caps → Option (List Char × Caps)) :
    matchRe ktBody s caps k =
      match s with
      | c1 :: c2 :: c3 :: rest =>
        if c1.toLower == 'K'.toLower then
          if c2.toLower == 'T'.toLower then
            if c3.toLower == '1'.toLower then
              match repConsume alnumC 33 rest with
              | some rest' => k rest' caps
              | none => none
            else none
          else none
        else none
      | _ => none := by
  cases s with
  | nil => rfl
  | cons c1 t1 =>
    cases t1 with
    | nil =>
      simp only [ktBody, seqList, List.foldr, matchRe, chI]
      split <;> rfl
    | cons c2 t2 =>
      cases t2 with
      | nil =>
        simp only [ktBody, seqList, List.foldr, matchRe, chI]
        split
        · split <;> rfl
        · rfl
      | cons c3 rest =>
        simp only [ktBody, seqList, List.foldr, matchRe, chI]

/-- The EditArt contract group always records a capture of the EditArt
contract shape. -/
theorem guardedP_group1_ktBody : GuardedP shape1P (Re.group 1 ktBody) := by
  intro s caps k
  rcases s with _ | ⟨c1, _ | ⟨c2, _ | ⟨c3, rest⟩⟩⟩
  · rfl
  · simp only [matchRe]
  · simp only [matchRe]
  · simp only [matchRe]
    split
    · split
      · split
        · cases hrep : repConsume alnumC 33 rest with
          | none => rfl
          | some rest2 =>
            show k rest2 (setCap 1 (String.mk ((c1 :: c2 :: c3 :: rest).take
                  ((c1 :: c2 :: c3 :: rest).length - rest2.length))) caps) =
              gateK shape1P k rest2 (setCap 1 (String.mk ((c1 :: c2 :: c3 :: rest).take
                  ((c1 :: c2 :: c3 :: rest).length - rest2.length))) caps)
            obtain ⟨pre, hpre, hlen, hall⟩ :=
              repConsume_sound alnumC 33 rest rest2 hrep
            have hs : c1 :: c2 :: c3 :: rest = (c1 :: c2 :: c3 :: pre) ++ rest2 := by
              simp [hpre]
            rw [hs, List.length_append, Nat.add_sub_cancel, List.take_left]
            have hshape :
                shape1P (setCap 1 (String.mk (c1 :: c2 :: c3 :: pre)) caps) = true := by
              simp only [shape1P, setCap, if_pos rfl]
              simp only [editartKTShape, String.toList, String.mk]
              simp_all
            simp [gateK, hshape]
        · rfl
      · rfl
    · rfl

/-- Guardedness of any pattern of the shape
`scheme www literal (group 1 body) tail` in `isSome1P` — all the collection
patterns have this shape. -/
theorem guardedP_collection_shape (lit g1body tail : Re) :
    GuardedP isSome1P
      (Re.seq schemeRe (Re.seq wwwRe (Re.seq lit (Re.seq (Re.group 1 g1body) tail)))) :=
  guardedP_seq_left (guardedP_seq_left (guardedP_seq_left
    (guardedP_seq_first
      (by intro s caps k; exact guardedP_group_isSome 1 g1body s caps k)
      (fun j str c _ hc => isSome1P_stable j str c hc))))

theorem guardedP_objktColPat1 : GuardedP isSome1P objktColPat1 :=
  guardedP_collection_shape (litI "objkt.com/collections/") (Re.plusCls notSlashQC)
    (Re.seq (litI "/projects/")
      (Re.seq (Re.group 2 (Re.plusCls digitC)) (Re.seq queryTailRe Re.eps)))

theorem guardedP_objktColPat2 : GuardedP isSome1P objktColPat2 :=
  guardedP_collection_shape (litI "objkt.com/collections/") (Re.plusCls notSlashQC)
    (Re.seq (Re.nla (litI "/projects/")) (Re.seq queryTailRe Re.eps))

theorem guardedP_fxhashColPat1 : GuardedP isSome1P fxhashColPat1 :=
  guardedP_collection_shape (litI "fxhash.xyz/generative/") (Re.plusCls digitC)
    (Re.seq queryTailRe Re.eps)

theorem guardedP_fxhashColPat2 : GuardedP isSome1P fxhashColPat2 :=
  guardedP_collection_shape (litI "fxhash.xyz/project/") (Re.plusCls notSlashQC)
    (Re.seq queryTailRe Re.eps)

theorem guardedP_bootloaderColPat : GuardedP isSome1P bootloaderColPat :=
  guardedP_collection_shape (litI "bootloader.art/generator/") (Re.plusCls digitC)
    (Re.seq queryTailRe Re.eps)

theorem guardedP_editartColPat : GuardedP isSome1P editartColPat :=
  guardedP_collection_shape (litI "editart.xyz/series/") ktBody
    (Re.seq (Re.opt (Re.seq (chC '/') (Re.starCls notWsC))) Re.eps)

/-- Guardedness of the full EditArt token pattern for the contract shape. -/
theorem guardedP_editartPat : GuardedP shape1P editartPat := by
  have htail : ∀ j str c,
      j ∈ groupIdxs (Re.seq (chC '/')
        (Re.seq (Re.group 2 (Re.plusCls digitC)) (Re.seq queryTailRe Re.eps))) →
      shape1P c = true → shape1P (setCap j str c) = true := by
    intro j str c hj hc
    have hj2 : j = 2 := by
      simpa [groupIdxs, chC, queryTailRe] using hj
    subst hj2
    exact shape1P_stable_ne 2 str c (by norm_num) hc
  have hg : GuardedP shape1P (Re.seq (Re.group 1 ktBody) (Re.seq (chC '/')
      (Re.seq (Re.group 2 (Re.plusCls digitC)) (Re.seq queryTailRe Re.eps)))) :=
    guardedP_seq_first guardedP_group1_ktBody htail
  exact guardedP_seq_left (guardedP_seq_left (guardedP_seq_left hg))

/-! ## Lemmas about `findFirst` -/

/-- Any successful `findFirst` arises at a concrete start position. -/
theorem findFirst_exists (r : Re) (text : List Char) (jm : JsMatch)
    (h : findFirst r text = some jm) :
    ∃ i rest caps, matchAt r (text.drop i) = some (rest, caps) ∧
      jm.m0 = String.mk ((text.drop i).take ((text.drop i).length - rest.length)) ∧
      jm.groups = caps := by
  obtain ⟨i, _, hi⟩ := List.exists_of_findSome?_eq_some h
  cases hma : matchAt r (text.drop i) with
  | none => rw [hma] at hi; exact absurd hi (by simp)
  | some rc =>
    obtain ⟨rest, caps⟩ := rc
    rw [hma] at hi
    simp only [Option.some.injEq] at hi
    exact ⟨i, rest, caps, hma, by rw [← hi], by rw [← hi]⟩

/-- The captures of any successful `findFirst` over a `P`-guarded pattern
satisfy `P`. -/
theorem findFirst_caps (P : Caps → Bool) (r : Re) (hG : GuardedP P r)
    (text : List Char) (jm : JsMatch) (h : findFirst r text = some jm) :
    P jm.groups = true := by
  obtain ⟨i, rest, caps, hma, _, hcaps⟩ := findFirst_exists r text jm h
  rw [hcaps]
  unfold matchAt at hma
  rw [hG] at hma
  obtain ⟨s', c', hk⟩ := matchRe_some_origin r _ _ _ _ hma
  simp only [gateK] at hk
  split at hk
  · rename_i hc
    simp only [Option.some.injEq, Prod.mk.injEq] at hk
    rw [← hk.2]
    exact hc
  · exact absurd hk (by simp)

/-- `take` of `drop` is an infix. -/
theorem take_drop_infix {α : Type} (l : List α) (i n : Nat) :
    (l.drop i).take n <:+: l :=
  (List.take_prefix n (l.drop i)).isInfix.trans (List.drop_suffix i l).isInfix

/-- The matched substring of any successful `findFirst` is an infix of the
input. -/
theorem findFirst_m0_infix (r : Re) (text : List Char) (jm : JsMatch)
    (h : findFirst r text = some jm) : jm.m0.toList <:+: text := by
  obtain ⟨i, rest, caps, _, hm0, _⟩ := findFirst_exists r text jm h
  rw [hm0]
  exact take_drop_infix text i _

/-- A successful `findSome?` splits the list at the first hit. -/
theorem findSome?_split {α β : Type} (f : α → Option β) :
    ∀ (l : List α) (v : β), l.findSome? f = some v →
      ∃ l₁ x l₂, l = l₁ ++ x :: l₂ ∧ f x = some v ∧ ∀ y ∈ l₁, f y = none := by
  intro l
  induction l with
  | nil => intro v h; exact absurd h (by simp)
  | cons a as ih =>
    intro v h
    rw [List.findSome?_cons] at h
    cases hfa : f a with
    | some b =>
      rw [hfa] at h
      exact ⟨[], a, as, by simp, by rw [hfa]; exact h, by simp⟩
    | none =>
      rw [hfa] at h
      obtain ⟨l₁, x, l₂, hsplit, hx, hnone⟩ := ih v h
      refine ⟨a :: l₁, x, l₂, by simp [hsplit], hx, ?_⟩
      intro y hy
      rcases List.mem_cons.mp hy with hya | hyl
      · rw [hya]; exact hfa
      · exact hnone y hyl

/-- Decomposing `range n` as `l₁ ++ x :: l₂` forces `x = l₁.length` and
`l₁ = range l₁.length`. -/
theorem range_split (n : Nat) (l₁ : List Nat) (x : Nat) (l₂ : List Nat)
    (h : List.range n = l₁ ++ x :: l₂) : x = l₁.length ∧ l₁ = List.range l₁.length := by
  have hlen : l₁.length < n := by
    have := congrArg List.length h
    simp [List.length_append] at this
    omega
  have htake : l₁ = List.range l₁.length := by
    have h1 : (List.range n).take l₁.length = l₁ := by
      rw [h, List.take_left]
    rw [List.take_range, Nat.min_eq_left (Nat.le_of_lt hlen)] at h1
    exact h1.symm
  have hx : x = l₁.length := by
    have h2 : (List.range n)[l₁.length]? = some x := by
      rw [h]
      rw [List.getElem?_append_right (Nat.le_refl _)]
      simp
    rw [List.getElem?_range hlen] at h2
    exact (Option.some.injEq .. ▸ h2).symm
  exact ⟨hx, htake⟩

/-- `findFirst` returns the leftmost match: it succeeds at some start
position before which no position matches. -/
theorem findFirst_leftmost (r : Re) (text : List Char)
    (h : (findFirst r text).isSome = true) :
    ∃ i, i ≤ text.length ∧ (matchAt r (text.drop i)).isSome = true ∧
      ∀ j < i, matchAt r (text.drop j) = none := by
  obtain ⟨jm, hjm⟩ := Option.isSome_iff_exists.mp h
  obtain ⟨l₁, x, l₂, hsplit, hx, hnone⟩ := findSome?_split _ _ _ hjm
  obtain ⟨hxlen, _⟩ := range_split _ _ _ _ hsplit
  subst hxlen
  have hxle : l₁.length ≤ text.length := by
    have := congrArg List.length hsplit
    simp [List.length_append] at this
    omega
  refine ⟨l₁.length, hxle, ?_, ?_⟩
  · cases hma : matchAt r (text.drop l₁.length) with
    | none => rw [hma] at hx; exact absurd hx (by simp)
    | some rc => simp
  · intro j hj
    have hyl : j ∈ l₁ := by
      obtain ⟨_, hl₁⟩ := range_split _ _ _ _ hsplit
      rw [hl₁]
      exact List.mem_range.mpr hj
    have := hnone j hyl
    cases hma : matchAt r (text.drop j) with
    | none => rfl
    | some rc =>
      rw [hma] at this
      obtain ⟨rest, caps⟩ := rc
      exact absurd this (by simp)

/-! ## Lemmas about the aggregation loop -/

theorem collect_go (matchList : List MarketplaceMatch) :
    ∀ (l : List (SettledResult TezosNFT)) (n : Nat) (acc : List TezosNFT × List String),
      (List.enumFrom n l).foldl (collectStep matchList) acc =
        (acc.1 ++ l.filterMap settledSuccess,
         acc.2 ++ (List.enumFrom n l).filterMap (errEntry matchList)) := by
  intro l
  induction l with
  | nil => intro n acc; simp [List.enumFrom]
  | cons a as ih =>
    intro n acc
    rw [List.enumFrom_cons]
    simp only [List.foldl_cons]
    cases hsa : settledSuccess a with
    | some nft =>
      rw [ih (n + 1) _]
      simp [collectStep, errEntry, hsa, List.filterMap_cons]
    | none =>
      rw [ih (n + 1) _]
      simp [collectStep, errEntry, hsa, List.filterMap_cons]

/-- The aggregation loop collects exactly the successful records, in input
order, and one error entry per failed task. -/
theorem collectResults_spec (matchList : List MarketplaceMatch)
    (results : List (SettledResult TezosNFT)) :
    collectResults matchList results =
      (results.filterMap settledSuccess,
       results.enum.filterMap (errEntry matchList)) := by
  unfold collectResults
  rw [show results.enum = List.enumFrom 0 results from rfl, collect_go]
  simp

/-- When every task fails, the loop records one error entry per task. -/
theorem errEntry_all_fail (matchList : List MarketplaceMatch) :
    ∀ (l : List (SettledResult TezosNFT)) (n : Nat),
      (∀ r ∈ l, settledSuccess r = none) →
      ((List.enumFrom n l).filterMap (errEntry matchList)).length = l.length := by
  intro l
  induction l with
  | nil => intro n _; simp [List.enumFrom]
  | cons a as ih =>
    intro n hall
    rw [List.enumFrom_cons]
    have ha : settledSuccess a = none := hall a (by simp)
    simp only [List.filterMap_cons, errEntry, ha]
    simp only [List.length_cons]
    rw [ih (n + 1) (fun r hr => hall r (by simp [hr]))]

/-! ## Character-class equivalences -/

theorem b58C_eq_claimBase58 (c : Char) : b58C c = claimBase58 c := by
  unfold b58C claimBase58
  rw [Bool.eq_iff_iff]
  simp only [Bool.or_eq_true, Bool.and_eq_true, Bool.not_eq_true', Bool.or_eq_false_iff,
    decide_eq_true_eq, decide_eq_false_iff_not]
  omega

/-! ## Extraction-level lemmas -/

/-- Whatever the marketplace, an extracted NFT match has a non-empty token id
and its `url` is the exact matched substring of the input. -/
theorem extractNFTMatch_shape (key : MKey) (mname : String) (e : PatternEntry)
    (content : String) (m : MarketplaceMatch)
    (h : extractNFTMatch key mname e content = some m) :
    m.tokenId ≠ "" ∧ m.url.toList <:+: content.toList := by
  unfold extractNFTMatch at h
  cases hff : findFirst e.pat content.toList with
  | none => rw [hff] at h; exact absurd h (by simp)
  | some jm =>
    rw [hff] at h
    simp only at h
    split at h
    · exact absurd h (by simp)
    · rename_i hne
      simp only [Option.some.injEq] at h
      refine ⟨?_, ?_⟩
      · rw [← h]; exact hne
      · rw [← h]
        exact findFirst_m0_infix e.pat content.toList jm hff

/-- An extracted NFT match carries its marketplace's display name. -/
theorem extractNFTMatch_name (key : MKey) (mname : String) (e : PatternEntry)
    (content : String) (m : MarketplaceMatch)
    (h : extractNFTMatch key mname e content = some m) : m.marketplace = mname := by
  unfold extractNFTMatch at h
  cases hff : findFirst e.pat content.toList with
  | none => rw [hff] at h; exact absurd h (by simp)
  | some jm =>
    rw [hff] at h
    simp only at h
    split at h
    · exact absurd h (by simp)
    · simp only [Option.some.injEq] at h
      rw [← h]

/-- An EditArt extraction takes its contract address from group 1. -/
theorem extractNFTMatch_editart (mname : String) (e : PatternEntry)
    (content : String) (m : MarketplaceMatch)
    (h : extractNFTMatch MKey.editart mname e content = some m) :
    ∃ jm, findFirst e.pat content.toList = some jm ∧
      m.contractAddress = some (jsOrStr (jm.groups 1) "") := by
  unfold extractNFTMatch at h
  cases hff : findFirst e.pat content.toList with
  | none => rw [hff] at h; exact absurd h (by simp)
  | some jm =>
    rw [hff] at h
    simp only at h
    split at h
    · exact absurd h (by simp)
    · simp only [Option.some.injEq] at h
      exact ⟨jm, rfl, by rw [← h]; simp [nftFields]⟩

/-- A nonempty EditArt-shaped string is nonempty. -/
theorem editartKTShape_ne_empty (a : String) (h : editartKTShape a = true) : a ≠ "" := by
  intro ha
  rw [ha] at h
  exact absurd h (by simp [editartKTShape, String.toList])

/-- A `shape1P` capture yields a concrete shaped string in group 1. -/
theorem shape1P_elim (c : Caps) (h : shape1P c = true) :
    ∃ a, c 1 = some a ∧ editartKTShape a = true := by
  unfold shape1P at h
  cases hc : c 1 with
  | none => rw [hc] at h; exact absurd h (by simp)
  | some a => rw [hc] at h; exact ⟨a, rfl, h⟩

/-! ## Claim theorems -/

/-- **C1.** For every raw marketplace-indexer token payload,
`determineSaleType` follows the precedence open_edition > listing >
english_auction > dutch_auction > none, first applicable wins: an active
open-edition record yields `saleType = "open_edition"` and no `edition`
field even when active listings or auctions are also present; with no open
edition but at least one active listing, `saleType = "listing"` with
`edition = {current := the listing's amount_left, total := supply or 0 if
unknown}`; then English auctions, then Dutch auctions, else `"none"`. -/
theorem determineSaleType_precedence (md : ObjktTokenMetadata) :
    (∀ oe, md.open_edition_active = some oe →
      (determineSaleType md).saleType = some "open_edition" ∧
      (determineSaleType md).edition = none) ∧
    (md.open_edition_active = none → ∀ l ls, md.listings_active = some (l :: ls) →
      (determineSaleType md).saleType = some "listing" ∧
      (determineSaleType md).edition =
        some { current := l.amount_left, total := jsOrQ md.supply 0 }) ∧
    (md.open_edition_active = none →
      (∀ l ls, md.listings_active ≠ some (l :: ls)) →
      ∀ a as, md.english_auctions_active = some (a :: as) →
      (determineSaleType md).saleType = some "english_auction") ∧
    (md.open_edition_active = none →
      (∀ l ls, md.listings_active ≠ some (l :: ls)) →
      (∀ a as, md.english_auctions_active ≠ some (a :: as)) →
      ∀ d ds, md.dutch_auctions_active = some (d :: ds) →
      (determineSaleType md).saleType = some "dutch_auction") ∧
    (md.open_edition_active = none →
      (∀ l ls, md.listings_active ≠ some (l :: ls)) →
      (∀ a as, md.english_auctions_active ≠ some (a :: as)) →
      (∀ d ds, md.dutch_auctions_active ≠ some (d :: ds)) →
      (determineSaleType md).saleType = some "none") := by
  refine ⟨?_, ?_, ?_, ?_, ?_⟩
  · intro oe hoe
    simp [determineSaleType, hoe]
  · intro h0 l ls hl
    simp [determineSaleType, h0, hl]
  · intro h0 hnl a as ha
    rcases hls : md.listings_active with _ | L
    · simp [determineSaleType, h0, hls, ha]
    · rcases L with _ | ⟨l, ls'⟩
      · simp [determineSaleType, h0, hls, ha]
      · exact absurd hls (hnl l ls')
  · intro h0 hnl hna d ds hd
    rcases hls : md.listings_active with _ | L
    · rcases hea : md.english_auctions_active with _ | A
      · simp [determineSaleType, h0, hls, hea, hd]
      · rcases A with _ | ⟨a, as'⟩
        · simp [determineSaleType, h0, hls, hea, hd]
        · exact absurd hea (hna a as')
    · rcases L with _ | ⟨l, ls'⟩
      · rcases hea : md.english_auctions_active with _ | A
        · simp [determineSaleType, h0, hls, hea, hd]
        · rcases A with _ | ⟨a, as'⟩
          · simp [determineSaleType, h0, hls, hea, hd]
          · exact absurd hea (hna a as')
      · exact absurd hls (hnl l ls')
  · intro h0 hnl hna hnd
    rcases hls : md.listings_active with _ | L
    case some =>
      rcases L with _ | ⟨l, ls'⟩
      case cons => exact absurd hls (hnl l ls')
      case nil =>
        rcases hea : md.english_auctions_active with _ | A
        case some =>
          rcases A with _ | ⟨a, as'⟩
          case cons => exact absurd hea (hna a as')
          case nil =>
            rcases hda : md.dutch_auctions_active with _ | D
            case some =>
              rcases D with _ | ⟨d, ds'⟩
              case cons => exact absurd hda (hnd d ds')
              case nil => simp [determineSaleType, h0, hls, hea, hda]
            case none => simp [determineSaleType, h0, hls, hea, hda]
        case none =>
          rcases hda : md.dutch_auctions_active with _ | D
          case some =>
            rcases D with _ | ⟨d, ds'⟩
            case cons => exact absurd hda (hnd d ds')
            case nil => simp [determineSaleType, h0, hls, hea, hda]
          case none => simp [determineSaleType, h0, hls, hea, hda]
    case none =>
      rcases hea : md.english_auctions_active with _ | A
      case some =>
        rcases A with _ | ⟨a, as'⟩
        case cons => exact absurd hea (hna a as')
        case nil =>
          rcases hda : md.dutch_auctions_active with _ | D
          case some =>
            rcases D with _ | ⟨d, ds'⟩
            case cons => exact absurd hda (hnd d ds')
            case nil => simp [determineSaleType, h0, hls, hea, hda]
          case none => simp [determineSaleType, h0, hls, hea, hda]
      case none =>
        rcases hda : md.dutch_auctions_active with _ | D
        case some =>
          rcases D with _ | ⟨d, ds'⟩
          case cons => exact absurd hda (hnd d ds')
          case nil => simp [determineSaleType, h0, hls, hea, hda]
        case none => simp [determineSaleType, h0, hls, hea, hda]

/-- Witness for C1: on a payload with an open edition, a listing and an
auction all active, the open edition wins with no edition field; with no
open edition, the listing wins over the auction. -/
theorem determineSaleType_precedence_witness :
    ((determineSaleType oeAndListingMd).saleType = some "open_edition" ∧
      (determineSaleType oeAndListingMd).edition = none) ∧
    (determineSaleType listingAndAuctionMd).saleType = some "listing" ∧
    (determineSaleType listingAndAuctionMd).edition =
      some { current := 3, total := 10 } := by
  have h1 := (determineSaleType_precedence oeAndListingMd).1
    { price := 5000000, start_time := none, end_time := none, max_per_wallet := some 2 }
    (by decide)
  have h2 := (determineSaleType_precedence listingAndAuctionMd).2.1 (by decide)
    { price := 5000000, amount_left := 3 } [] (by decide)
  refine ⟨⟨h1.1, h1.2⟩, h2.1, ?_⟩
  rw [h2.2]
  decide

/-- **C2 counterexample.** For the raw integer value `v = 0` the claim fails:
`buildCollectionFromData` on a payload whose `floor_price` is `0` omits the
`floorPrice` field entirely (JS truthiness) instead of placing
`0 / 1000000 = 0` in the canonical record. -/
theorem buildCollectionFromData_zero_omitted :
    ((buildCollectionFromData zeroFloorData someColMatch).data.map
      TezosCollection.floorPrice) = some none ∧
    ¬ ((buildCollectionFromData zeroFloorData someColMatch).data.map
      TezosCollection.floorPrice) = some (some ((0 : ℚ) / 1000000)) := by
  constructor
  · decide
  · decide

/-- **C2 (amended).** For every *nonzero* monetary raw integer value `v`,
the normalizer places `v / 1000000` in the canonical record and multiplying
back by 1,000,000 recovers `v` exactly (in the rational model); this also
holds for `v = 0` for the sale prices (open-edition, listing, English and
Dutch auction prices are divided unconditionally), but collection
`floorPrice` / `volume24h` / `volumeTotal` with raw value `0` are omitted
(absent), so no minor-unit amount ever reaches a canonical record. -/
theorem monetary_minor_unit_division :
    (∀ (d : CollectionData) (mt : CollectionMatch) (v : ℚ), d.floor_price = some v →
      v ≠ 0 → ∃ c, (buildCollectionFromData d mt).data = some c ∧
        c.floorPrice = some (v / 1000000) ∧ (v / 1000000) * 1000000 = v) ∧
    (∀ (d : CollectionData) (mt : CollectionMatch) (v : ℚ), d.volume_24h = some v →
      v ≠ 0 → ∃ c, (buildCollectionFromData d mt).data = some c ∧
        c.volume24h = some (v / 1000000) ∧ (v / 1000000) * 1000000 = v) ∧
    (∀ (d : CollectionData) (mt : CollectionMatch) (v : ℚ), d.volume_total = some v →
      v ≠ 0 → ∃ c, (buildCollectionFromData d mt).data = some c ∧
        c.volumeTotal = some (v / 1000000) ∧ (v / 1000000) * 1000000 = v) ∧
    (∀ (md : ObjktTokenMetadata) (oe : OpenEditionActive),
      md.open_edition_active = some oe →
      ∃ p, (determineSaleType md).price = some p ∧ p.amount = oe.price / 1000000 ∧
        p.amount * 1000000 = oe.price) ∧
    (∀ (md : ObjktTokenMetadata) (l : ListingActive) (ls : List ListingActive),
      md.open_edition_active = none → md.listings_active = some (l :: ls) →
      ∃ p, (determineSaleType md).price = some p ∧ p.amount = l.price / 1000000 ∧
        p.amount * 1000000 = l.price) ∧
    (∀ (md : ObjktTokenMetadata) (a : EnglishAuctionActive)
      (as : List EnglishAuctionActive), md.open_edition_active = none →
      (md.listings_active = none ∨ md.listings_active = some []) →
      md.english_auctions_active = some (a :: as) →
      ∃ p, (determineSaleType md).price = some p ∧
        p.amount = (match a.current_price with
                    | some q => q
                    | none => a.reserve) / 1000000 ∧
        p.amount * 1000000 = (match a.current_price with
                              | some q => q
                              | none => a.reserve)) ∧
    (∀ (md : ObjktTokenMetadata) (d : DutchAuctionActive)
      (ds : List DutchAuctionActive), md.open_edition_active = none →
      (md.listings_active = none ∨ md.listings_active = some []) →
      (md.english_auctions_active = none ∨ md.english_auctions_active = some []) →
      md.dutch_auctions_active = some (d :: ds) →
      ∃ p, (determineSaleType md).price = some p ∧ p.amount = d.current_price / 1000000 ∧
        p.amount * 1000000 = d.current_price) := by
  have hrt : ∀ v : ℚ, (v / 1000000) * 1000000 = v := fun v =>
    div_mul_cancel₀ v (by norm_num)
  refine ⟨?_, ?_, ?_, ?_, ?_, ?_, ?_⟩
  · intro d mt v hv hne
    refine ⟨_, rfl, ?_, hrt v⟩
    simp [buildCollectionFromData, jsTernaryDiv, hv, hne]
  · intro d mt v hv hne
    refine ⟨_, rfl, ?_, hrt v⟩
    simp [buildCollectionFromData, jsTernaryDiv, hv, hne]
  · intro d mt v hv hne
    refine ⟨_, rfl, ?_, hrt v⟩
    simp [buildCollectionFromData, jsTernaryDiv, hv, hne]
  · intro md oe hoe
    exact ⟨{ amount := oe.price / 1000000, currency := "XTZ", symbol := "ꜩ" },
      by simp [determineSaleType, hoe], rfl, hrt _⟩
  · intro md l ls h0 hl
    exact ⟨{ amount := l.price / 1000000, currency := "XTZ", symbol := "ꜩ" },
      by simp [determineSaleType, h0, hl], rfl, hrt _⟩
  · intro md a as h0 hls hea
    refine ⟨{ amount := (match a.current_price with
                         | some q => q
                         | none => a.reserve) / 1000000,
              currency := "XTZ", symbol := "ꜩ" }, ?_, rfl, hrt _⟩
    rcases hls with hls | hls <;> simp [determineSaleType, h0, hls, hea]
  · intro md d ds h0 hls hea hda
    refine ⟨{ amount := d.current_price / 1000000, currency := "XTZ", symbol := "ꜩ" },
      ?_, rfl, hrt _⟩
    rcases hls with hls | hls <;> rcases hea with hea | hea <;>
      simp [determineSaleType, h0, hls, hea, hda]

/-- Witness for the amended C2: a raw floor price of 7,000,000 minor units
becomes 7 major units, and 7 × 1,000,000 recovers the raw value. -/
theorem monetary_minor_unit_division_witness :
    ∃ c, (buildCollectionFromData sevenData someColMatch).data = some c ∧
      c.floorPrice = some ((7000000 : ℚ) / 1000000) ∧
      ((7000000 : ℚ) / 1000000) * 1000000 = 7000000 :=
  monetary_minor_unit_division.1 sevenData someColMatch 7000000 (by decide) (by norm_num)

/-- **C4.** The per-endpoint rate gate: given a recorded last accepted call
at time `t` for the endpoint key, a call at `now` is rejected iff strictly
less than `60000 / rateLimit` milliseconds have elapsed; an accepted call
records its timestamp, a rejected call leaves the state unchanged; two
calls to the same key within one minimum interval are never both accepted,
and a call after the interval has elapsed since the last acceptance is
accepted. -/
theorem checkRateLimit_gate (rate : ℚ) (rl : RateLimitMap) (endpoint : String)
    (t now now2 : Int) (hrate : 0 < rate) (hlast : rlGet rl endpoint = some t) :
    ((checkRateLimit rate rl endpoint now).1 = false ↔
      ((now : ℚ) - (t : ℚ) < 60000 / rate)) ∧
    ((checkRateLimit rate rl endpoint now).1 = true →
      rlGet (checkRateLimit rate rl endpoint now).2 endpoint = some now) ∧
    ((checkRateLimit rate rl endpoint now).1 = false →
      (checkRateLimit rate rl endpoint now).2 = rl) ∧
    ((checkRateLimit rate rl endpoint now).1 = true →
      ((now2 : ℚ) - (now : ℚ) < 60000 / rate) →
      (checkRateLimit rate (checkRateLimit rate rl endpoint now).2 endpoint now2).1 =
        false) ∧
    ((checkRateLimit rate rl endpoint now).1 = true →
      (60000 / rate ≤ (now2 : ℚ) - (now : ℚ)) →
      (checkRateLimit rate (checkRateLimit rate rl endpoint now).2 endpoint now2).1 =
        true) := by
  have hget : rlGet (rlSet rl endpoint now) endpoint = some now := by
    simp [rlGet, rlSet, List.find?]
  by_cases hc : ((now : ℚ) - (t : ℚ) < 60000 / rate)
  · have hres : checkRateLimit rate rl endpoint now = (false, rl) := by
      simp only [checkRateLimit, hlast, Option.getD_some]
      rw [if_pos hc]
    refine ⟨?_, ?_, ?_, ?_, ?_⟩ <;> rw [hres] <;> simp [hc]
  · have hres : checkRateLimit rate rl endpoint now = (true, rlSet rl endpoint now) := by
      simp only [checkRateLimit, hlast, Option.getD_some]
      rw [if_neg hc]
    refine ⟨?_, ?_, ?_, ?_, ?_⟩
    · rw [hres]; simp [hc]
    · intro _; rw [hres]; exact hget
    · intro hrej; rw [hres] at hrej; simp at hrej
    · intro _ hclose
      rw [hres]
      simp only [checkRateLimit, hget, Option.getD_some]
      rw [if_pos hclose]
    · intro _ hfar
      rw [hres]
      simp only [checkRateLimit, hget, Option.getD_some]
      rw [if_neg (not_lt.mpr hfar)]

/-- Witness for C4: with rate 60 (minimum interval 1000 ms) and a last
accepted call at 1000 ms, a call at 1500 ms is rejected and one at 2000 ms
is accepted. -/
theorem checkRateLimit_gate_witness :
    ((checkRateLimit 60 [("tokens/a", (1000 : Int))] "tokens/a" 1500).1 = false ↔
      (((1500 : Int) : ℚ) - ((1000 : Int) : ℚ) < 60000 / 60)) ∧
    ((checkRateLimit 60 [("tokens/a", (1000 : Int))] "tokens/a" 1500).1 = false) ∧
    ((checkRateLimit 60 [("tokens/a", (1000 : Int))] "tokens/a" 2000).1 = true) := by
  have h := checkRateLimit_gate 60 [("tokens/a", (1000 : Int))] "tokens/a" 1000 1500 2000
    (by norm_num) (by decide)
  refine ⟨h.1, h.1.mpr (by norm_num), ?_⟩
  have h2 := checkRateLimit_gate 60 [("tokens/a", (1000 : Int))] "tokens/a" 1000 2000 0
    (by norm_num) (by decide)
  cases hb : (checkRateLimit 60 [("tokens/a", (1000 : Int))] "tokens/a" 2000).1 with
  | false =>
    have := h2.1.mp hb
    norm_num at this
  | true => rfl

/-- **C8.** The contract-address validator agrees exactly with the claim's
canonical pattern: `isKTAddress` returns `true` precisely on strings made of
the prefix `KT1` followed by exactly 33 base58-alphabet characters (digits
1–9 and letters excluding `0`, `O`, `I`, `l`), and `false` on every string
of a different length or containing an excluded character. -/
theorem isKTAddress_spec (s : String) : isKTAddress s = canonicalKT s := by
  unfold isKTAddress canonicalKT
  rw [show claimBase58 = b58C from funext (fun c => (b58C_eq_claimBase58 c).symm)]

/-- **C3.** `processMessage` over a message with zero detected NFT links
returns the structured "no links found" failure (the embedding is total, so
no exception can escape); with at least one match it fails with an
aggregate error naming each match's failure reason iff every per-match
fetch fails, and otherwise succeeds carrying exactly the successful
records in order (failed matches are omitted and never abort siblings). -/
theorem processMessage_error_handling
    (fetchNFTData : MarketplaceMatch → SettledResult TezosNFT) (content : String) :
    (detectNFTLinks content = [] →
      processMessage fetchNFTData content =
        { success := false, data := none,
          error := some "No Tezos marketplace links found in message" }) ∧
    (detectNFTLinks content ≠ [] →
      (((processMessage fetchNFTData content).success = false) ↔
        (∀ mt ∈ detectNFTLinks content, settledSuccess (fetchNFTData mt) = none)) ∧
      ((∀ mt ∈ detectNFTLinks content, settledSuccess (fetchNFTData mt) = none) →
        processMessage fetchNFTData content =
          { success := false, data := none,
            error := some ("Failed to fetch NFT data: " ++ String.intercalate ", "
              (((detectNFTLinks content).map fetchNFTData).enum.filterMap
                (errEntry (detectNFTLinks content)))) } ∧
        ((((detectNFTLinks content).map fetchNFTData).enum.filterMap
            (errEntry (detectNFTLinks content))).length =
          (detectNFTLinks content).length)) ∧
      ((∃ mt ∈ detectNFTLinks content,
          (settledSuccess (fetchNFTData mt)).isSome = true) →
        processMessage fetchNFTData content =
          { success := true,
            data := some
              (((detectNFTLinks content).map fetchNFTData).filterMap settledSuccess),
            error := none })) := by
  constructor
  · intro h
    unfold processMessage
    rw [h]
    simp
  · intro hne
    have hlen : ¬ (detectNFTLinks content).length = 0 := by
      simpa [List.length_eq_zero] using hne
    have hiff : (((detectNFTLinks content).map fetchNFTData).filterMap settledSuccess
        = []) ↔ (∀ mt ∈ detectNFTLinks content, settledSuccess (fetchNFTData mt) = none) := by
      rw [List.filterMap_eq_nil_iff]
      constructor
      · intro h mt hmt
        exact h _ (List.mem_map_of_mem _ hmt)
      · intro h r hr
        obtain ⟨mt, hmt, rfl⟩ := List.mem_map.mp hr
        exact h mt hmt
    by_cases hz : (((detectNFTLinks content).map fetchNFTData).filterMap settledSuccess)
        = []
    · have hres : processMessage fetchNFTData content =
          { success := false, data := none,
            error := some ("Failed to fetch NFT data: " ++ String.intercalate ", "
              (((detectNFTLinks content).map fetchNFTData).enum.filterMap
                (errEntry (detectNFTLinks content)))) } := by
        unfold processMessage
        rw [if_neg hlen]
        simp only [collectResults_spec]
        rw [if_pos (by simp [hz])]
      refine ⟨?_, ?_, ?_⟩
      · rw [hres]
        simpa using hiff.mp hz
      · intro _
        refine ⟨hres, ?_⟩
        have hall : ∀ r ∈ (detectNFTLinks content).map fetchNFTData,
            settledSuccess r = none := List.filterMap_eq_nil_iff.mp hz
        rw [show ((detectNFTLinks content).map fetchNFTData).enum =
          List.enumFrom 0 ((detectNFTLinks content).map fetchNFTData) from rfl]
        rw [errEntry_all_fail (detectNFTLinks content) _ 0 hall, List.length_map]
      · intro ⟨mt, hmt, hsome⟩
        have := hiff.mp hz mt hmt
        rw [this] at hsome
        exact absurd hsome (by simp)
    · have hres : processMessage fetchNFTData content =
          { success := true,
            data := some
              (((detectNFTLinks content).map fetchNFTData).filterMap settledSuccess),
            error := none } := by
        unfold processMessage
        rw [if_neg hlen]
        simp only [collectResults_spec]
        rw [if_neg (by simpa [List.length_eq_zero] using hz)]
      refine ⟨?_, ?_, ?_⟩
      · rw [hres]
        simp only [Bool.true_eq_false, false_iff]
        intro hall
        exact hz (hiff.mpr hall)
      · intro hall
        exact absurd (hiff.mpr hall) hz
      · intro _
        exact hres

/-- Witness for C3: a message with no links fails with the "no links"
error; with one link and a fetch oracle that always rejects, the failure
aggregates the match's reason; with an oracle that succeeds, the record
list is returned. -/
theorem processMessage_error_handling_witness :
    processMessage allRejectOracle "no links here" =
      { success := false, data := none,
        error := some "No Tezos marketplace links found in message" } ∧
    processMessage allRejectOracle oneLinkText =
      { success := false, data := none,
        error := some "Failed to fetch NFT data: Token 5: boom" } ∧
    processMessage allOkOracle oneLinkText =
      { success := true, data := some [okNFT], error := none } := by
  refine ⟨(processMessage_error_handling allRejectOracle "no links here").1 (by decide),
    ?_, ?_⟩
  · have h := (((processMessage_error_handling allRejectOracle oneLinkText).2
      (by decide)).2.1 (by decide)).1
    rw [h]
    decide
  · have h := ((processMessage_error_handling allOkOracle oneLinkText).2
      (by decide)).2.2
      ⟨{ marketplace := "OBJKT", tokenId := "5", contractAddress := none,
         url := "objkt.com/objkt/5" }, by decide, by decide⟩
    rw [h]
    decide

/-- **C10.** `processMessage` aggregates its per-match fetch results
deterministically in match order: the returned success list is exactly the
`filterMap` of the per-match outcomes over the matches in the order
`detectNFTLinks` produced them, so a failed match never reorders the
successes that follow it. -/
theorem processMessage_match_order
    (fetchNFTData : MarketplaceMatch → SettledResult TezosNFT) (content : String)
    (hne : detectNFTLinks content ≠ [])
    (hs : (processMessage fetchNFTData content).success = true) :
    (processMessage fetchNFTData content).data =
      some ((detectNFTLinks content).filterMap
        (fun mt => settledSuccess (fetchNFTData mt))) ∧
    (collectResults (detectNFTLinks content)
        ((detectNFTLinks content).map fetchNFTData)).1 =
      ((detectNFTLinks content).map fetchNFTData).filterMap settledSuccess := by
  have hlen : ¬ (detectNFTLinks content).length = 0 := by
    simpa [List.length_eq_zero] using hne
  have hcol := collectResults_spec (detectNFTLinks content)
    ((detectNFTLinks content).map fetchNFTData)
  by_cases hz : (((detectNFTLinks content).map fetchNFTData).filterMap settledSuccess)
      = []
  · exfalso
    revert hs
    unfold processMessage
    rw [if_neg hlen]
    simp only [collectResults_spec]
    rw [if_pos (by simp [hz])]
    simp
  · constructor
    · unfold processMessage
      rw [if_neg hlen]
      simp only [collectResults_spec]
      rw [if_neg (by simpa [List.length_eq_zero] using hz)]
      simp only [Option.some.injEq]
      rw [List.filterMap_map]
      rfl
    · rw [hcol]

/-- Witness for C10: with the all-success oracle on a one-link message, the
returned data is the match-order list of the records. -/
theorem processMessage_match_order_witness :
    (processMessage allOkOracle oneLinkText).data = some [okNFT] := by
  have h := processMessage_match_order allOkOracle oneLinkText (by decide) (by decide)
  rw [h.1]
  decide

/-- The collection extraction routes group 1 into the key-dependent field
pair, and group 1 always participated. -/
theorem extractCollection_group1 (key : MKey) (mname : String) (e : PatternEntry)
    (content : String) (m : CollectionMatch) (hg : GuardedP isSome1P e.pat)
    (he : extractCollectionMatch key mname e content = some m) :
    ∃ jm, findFirst e.pat content.toList = some jm ∧ (jm.groups 1).isSome = true ∧
      m.contractAddress = (collectionFields key jm).1 ∧
      m.projectId = (collectionFields key jm).2 := by
  unfold extractCollectionMatch at he
  cases hff : findFirst e.pat content.toList with
  | none => rw [hff] at he; exact absurd he (by simp)
  | some jm =>
    rw [hff] at he
    simp only [Option.some.injEq] at he
    have hc := findFirst_caps isSome1P e.pat hg content.toList jm hff
    exact ⟨jm, rfl, by simpa [isSome1P] using hc, by rw [← he], by rw [← he]⟩

/-- **C5 counterexample.** On an OBJKT `/collections/{path}/projects/{id}`
URL, `detectCollectionLinks` returns a match whose `contractAddress` *and*
`projectId` are both present, refuting "never both present" (the second
returned match comes from the second OBJKT collection pattern, whose
negative lookahead backtracks the path capture to `"ab"`). -/
theorem detectCollectionLinks_both_present :
    detectCollectionLinks bothFieldsText =
      [{ marketplace := "OBJKT", contractAddress := some "abc", projectId := some "12",
         url := "objkt.com/collections/abc/projects/12" },
       { marketplace := "OBJKT", contractAddress := some "ab", projectId := none,
         url := "objkt.com/collections/ab" }] := by decide

/-- **C5 (amended).** Every `CollectionLinkMatch` returned by
`detectCollectionLinks` has at least one of `contractAddress` / `projectId`
present — never both absent; however both may be present (the OBJKT
`/collections/{path}/projects/{id}` pattern sets both). -/
theorem detectCollectionLinks_not_both_absent (content : String) (m : CollectionMatch)
    (hm : m ∈ detectCollectionLinks content) :
    m.contractAddress.isSome = true ∨ m.projectId.isSome = true := by
  unfold detectCollectionLinks at hm
  rw [List.mem_flatMap] at hm
  obtain ⟨mk, hmkm, hm2⟩ := hm
  rw [List.mem_filterMap] at hm2
  obtain ⟨e, hme, he⟩ := hm2
  simp only [COLLECTION_PATTERNS, List.mem_cons, List.not_mem_nil, or_false] at hmkm
  rcases hmkm with rfl | rfl | rfl | rfl
  · simp only [List.mem_cons, List.not_mem_nil, or_false] at hme
    rcases hme with rfl | rfl
    · obtain ⟨jm, _, h1, hca, _⟩ :=
        extractCollection_group1 _ _ _ _ _ guardedP_objktColPat1 he
      left
      rw [hca]
      simpa [collectionFields] using h1
    · obtain ⟨jm, _, h1, hca, _⟩ :=
        extractCollection_group1 _ _ _ _ _ guardedP_objktColPat2 he
      left
      rw [hca]
      simpa [collectionFields] using h1
  · simp only [List.mem_cons, List.not_mem_nil, or_false] at hme
    rcases hme with rfl | rfl
    · obtain ⟨jm, _, h1, _, hpid⟩ :=
        extractCollection_group1 _ _ _ _ _ guardedP_fxhashColPat1 he
      right
      rw [hpid]
      simpa [collectionFields] using h1
    · obtain ⟨jm, _, h1, _, hpid⟩ :=
        extractCollection_group1 _ _ _ _ _ guardedP_fxhashColPat2 he
      right
      rw [hpid]
      simpa [collectionFields] using h1
  · simp only [List.mem_cons, List.not_mem_nil, or_false] at hme
    rcases hme with rfl
    obtain ⟨jm, _, h1, _, hpid⟩ :=
      extractCollection_group1 _ _ _ _ _ guardedP_bootloaderColPat he
    right
    rw [hpid]
    simpa [collectionFields] using h1
  · simp only [List.mem_cons, List.not_mem_nil, or_false] at hme
    rcases hme with rfl
    obtain ⟨jm, _, h1, hca, _⟩ :=
      extractCollection_group1 _ _ _ _ _ guardedP_editartColPat he
    left
    rw [hca]
    simpa [collectionFields] using h1

/-- Witness for the amended C5: the first match on the projects URL has a
present `contractAddress`. -/
theorem detectCollectionLinks_not_both_absent_witness :
    (some "abc" : Option String).isSome = true ∨
      (some "12" : Option String).isSome = true :=
  detectCollectionLinks_not_both_absent bothFieldsText
    { marketplace := "OBJKT", contractAddress := some "abc", projectId := some "12",
      url := "objkt.com/collections/abc/projects/12" } (by decide)

/-- **C6 counterexample.** The EditArt pattern accepts a contract segment of
33 `0`s after `KT1` (its class is `[a-zA-Z0-9]` under the `i` flag), so the
produced match's `contractAddress` does not satisfy the canonical base58
KT1 pattern. -/
theorem detectNFTLinks_editart_nonbase58 :
    detectNFTLinks nonBase58Text =
      [{ marketplace := "EditArt", tokenId := "3", contractAddress := some nonBase58Addr,
         url := nonBase58Text }] ∧
    canonicalKT nonBase58Addr = false ∧ isKTAddress nonBase58Addr = false := by
  refine ⟨by decide, by decide, by decide⟩

/-- **C6 (amended).** Every EditArt NFT-link match carries a present
`contractAddress` of the shape the pattern actually guarantees: a
case-insensitive `KT1` prefix followed by exactly 33 ASCII alphanumeric
characters — which may include `0`, `O`, `I`, `l`, so not necessarily the
canonical base58 KT1 pattern. -/
theorem detectNFTLinks_editart_shape (content : String) (m : MarketplaceMatch)
    (hm : m ∈ detectNFTLinks content) (hmk : m.marketplace = "EditArt") :
    ∃ a, m.contractAddress = some a ∧ editartKTShape a = true := by
  unfold detectNFTLinks at hm
  rw [List.mem_flatMap] at hm
  obtain ⟨mk, hmkm, hm2⟩ := hm
  rw [List.mem_filterMap] at hm2
  obtain ⟨e, hme, he⟩ := hm2
  simp only [MARKETPLACE_PATTERNS, List.mem_cons, List.not_mem_nil, or_false] at hmkm
  rcases hmkm with rfl | rfl | rfl | rfl | rfl | rfl
  · rw [extractNFTMatch_name _ _ _ _ _ he] at hmk
    exact absurd hmk (by decide)
  · rw [extractNFTMatch_name _ _ _ _ _ he] at hmk
    exact absurd hmk (by decide)
  · rw [extractNFTMatch_name _ _ _ _ _ he] at hmk
    exact absurd hmk (by decide)
  · rw [extractNFTMatch_name _ _ _ _ _ he] at hmk
    exact absurd hmk (by decide)
  · rw [extractNFTMatch_name _ _ _ _ _ he] at hmk
    exact absurd hmk (by decide)
  · simp only [List.mem_cons, List.not_mem_nil, or_false] at hme
    rcases hme with rfl
    obtain ⟨jm, hff, hca⟩ := extractNFTMatch_editart _ _ _ _ he
    have hsh := findFirst_caps shape1P editartPat guardedP_editartPat
      content.toList jm hff
    obtain ⟨a, hg1, ha⟩ := shape1P_elim jm.groups hsh
    refine ⟨a, ?_, ha⟩
    rw [hca, hg1]
    have hne := editartKTShape_ne_empty a ha
    simp [jsOrStr, hne]

/-- Witness for the amended C6: the match on the 33-zeros URL carries a
contract of the guaranteed (alphanumeric) shape. -/
theorem detectNFTLinks_editart_shape_witness :
    ∃ a, (some nonBase58Addr : Option String) = some a ∧ editartKTShape a = true :=
  detectNFTLinks_editart_shape nonBase58Text
    { marketplace := "EditArt", tokenId := "3", contractAddress := some nonBase58Addr,
      url := nonBase58Text } (by decide) (by decide)

/-- **C7.** Every match returned by `detectNFTLinks` has a non-empty
`tokenId` (a candidate URL from which no non-empty token identifier was
extracted yields no match), and its `url` is the exact substring of the
input text that the recognition pattern matched (taken verbatim from the
match, hence an infix of the input, never re-derived). -/
theorem detectNFTLinks_url_exact (content : String) (m : MarketplaceMatch)
    (hm : m ∈ detectNFTLinks content) :
    m.tokenId ≠ "" ∧ m.url.toList <:+: content.toList := by
  unfold detectNFTLinks at hm
  rw [List.mem_flatMap] at hm
  obtain ⟨mk, _, hm2⟩ := hm
  rw [List.mem_filterMap] at hm2
  obtain ⟨e, _, he⟩ := hm2
  exact extractNFTMatch_shape mk.1 mk.2.1 e content m he

/-- Witness for C7 at a concrete one-link message. -/
theorem detectNFTLinks_url_exact_witness :
    ("5" : String) ≠ "" ∧
      ("objkt.com/objkt/5" : String).toList <:+: oneLinkText.toList :=
  detectNFTLinks_url_exact oneLinkText
    { marketplace := "OBJKT", tokenId := "5", contractAddress := none,
      url := "objkt.com/objkt/5" } (by decide)

/-- **C9.** `detectNFTLinks` takes at most one match per
(marketplace, pattern) pair: the result is the pattern table filter-mapped
by the per-pattern single-`Option` extractor (so each pattern contributes
at most one match, in table order); the underlying matcher returns the
leftmost occurrence (no earlier start position matches); and a message with
two distinct URLs matching the same OBJKT pattern yields exactly one match,
whose `url` is the earlier occurrence. -/
theorem detectNFTLinks_first_match_only :
    (∀ (content : String), detectNFTLinks content =
      (MARKETPLACE_PATTERNS.flatMap (fun mk =>
        mk.2.2.map (fun e => (mk.1, mk.2.1, e)))).filterMap
          (fun pe => extractNFTMatch pe.1 pe.2.1 pe.2.2 content)) ∧
    (∀ (r : Re) (text : List Char), (findFirst r text).isSome = true →
      ∃ i, i ≤ text.length ∧ (matchAt r (text.drop i)).isSome = true ∧
        ∀ j < i, matchAt r (text.drop j) = none) ∧
    detectNFTLinks twoUrlText =
      [{ marketplace := "OBJKT", tokenId := "1", contractAddress := some "KT1a",
         url := "objkt.com/asset/KT1a/1" }] := by
  refine ⟨?_, findFirst_leftmost, by decide⟩
  intro content
  unfold detectNFTLinks MARKETPLACE_PATTERNS
  simp only [List.flatMap_cons, List.flatMap_nil, List.map_cons, List.map_nil,
    List.filterMap_cons, List.filterMap_nil, List.filterMap_append, List.append_nil]

/-- Witness for C9: `findFirst` on the one-link message matches at some
leftmost position. -/
theorem detectNFTLinks_first_match_only_witness :
    ∃ i, i ≤ oneLinkText.toList.length ∧
      (matchAt objktPat3 (oneLinkText.toList.drop i)).isSome = true ∧
      ∀ j < i, matchAt objktPat3 (oneLinkText.toList.drop j) = none :=
  detectNFTLinks_first_match_only.2.1 objktPat3 oneLinkText.toList (by decide)

end TezosPreview
